import Mathlib

/-
Verification of the output renderer (src/output.rs) and the filter
combinators (src/filter/common.rs) of the fd fork.

The unix platform is modelled: the native path separator is the single
character '/' (std::path::MAIN_SEPARATOR), and std::path::is_separator
holds exactly for '/'.

Paths in the text pipeline are modelled as lists of characters: the code
works on the result of Path::to_string_lossy, so a List Char value stands
for that rendered text.  The unix raw-byte pipeline is modelled separately
on lists of bytes (List Nat, each < 256).
-/

namespace Fd

/-- std::path::MAIN_SEPARATOR on unix. -/
def mainSeparator : Char := '/'

/-- The process-wide separator string MAIN_SEPARATOR_STR (output.rs lines 16-18). -/
def MAIN_SEPARATOR_STR : List Char := [mainSeparator]

/-- std::path::is_separator on unix: true exactly for '/'. -/
def isSeparator (c : Char) : Bool := c == mainSeparator

/-- Modelled from the spec: entry metadata ("at minimum: is-directory", spec section 3);
the defining file entry.rs is not under src/. -/
structure Metadata where
  is_dir : Bool
deriving DecidableEq

/-- Modelled from the spec: a DirEntry is "an opaque handle to a discovered filesystem
path plus a lazily-resolved, cacheable metadata result" (spec section 3); entry.rs is not
under src/.  entry.path() is the rendered text of the path, entry.metadata() is the
lazily resolved metadata, None when resolution failed. -/
structure DirEntry where
  path : List Char
  metadata : Option Metadata
deriving DecidableEq

/-- Path::is_absolute on unix: the path begins with the root separator. -/
def isAbsolute (s : List Char) : Bool := s.head? == some mainSeparator

/-- Whether the path begins with a literal current-directory component "."
(the include_cur_dir state of std path component parsing on unix). -/
def frontDotB (s : List Char) : Bool :=
  match s with
  | [] => false
  | c :: rest =>
    c == '.' && (match rest with | [] => true | c2 :: _ => isSeparator c2)

/-- Right-trimming step of std path component parsing, on the reversed character
list: drops trailing separator runs and trailing "." components, keeping a front
"." component when the path starts with one. -/
def trimRightRev (fd : Bool) : List Char → List Char
  | [] => []
  | c :: rest =>
    if isSeparator c then trimRightRev fd rest
    else if c == '.' && (match rest with | [] => true | c2 :: _ => isSeparator c2) then
      if fd && rest == [] then c :: rest
      else trimRightRev fd rest
    else c :: rest

/-- Model of Path::parent().map(|p| p.to_string_lossy().len()) on unix: the parent
of a path is a prefix of its textual form; parentLen returns the length of that
prefix, or none when the path is empty or terminates in the root. -/
def parentLen (s : List Char) : Option Nat :=
  match s with
  | [] => none
  | _ :: _ =>
    let hasRoot := isAbsolute s
    let fd := frontDotB s
    match trimRightRev fd s.reverse with
    | [] => none
    | r =>
      let comp := r.takeWhile (fun c => !(isSeparator c))
      match r.drop comp.length with
      | [] => some 0
      | rest =>
        match trimRightRev fd rest with
        | [] => if hasRoot then some 1 else some 0
        | r2 => some r2.length

/-- Modelled from the spec: strip_current_dir (crate::filesystem, not under src/)
strips "a leading current-directory prefix component if present" (spec section 4.2). -/
def strip_current_dir (s : List Char) : List Char :=
  match s with
  | ['.'] => []
  | '.' :: '/' :: rest => rest
  | _ => s

/-- stripped_path (output.rs lines 24-31): absolute paths verbatim, otherwise the
current-directory prefix is stripped. -/
def stripped_path (entry : DirEntry) : List Char :=
  if isAbsolute entry.path then entry.path else strip_current_dir entry.path

/-- replace_path_separator (output.rs lines 20-22): str::replace with the char
pattern MAIN_SEPARATOR, replacing every occurrence by the new separator string. -/
def replace_path_separator (sep : List Char) : List Char → List Char
  | [] => []
  | c :: cs => (if c = mainSeparator then sep else [c]) ++ replace_path_separator sep cs

/-- A resolved terminal style (lscolors::Style), opaque to this code. -/
structure Style where
  id : Nat
deriving DecidableEq

/-- lscolors::Indicator; only Indicator::Directory is used by output.rs. -/
inductive Indicator
  | directory
deriving DecidableEq

/-- The external lscolors style table: a style lookup by indicator and a style
lookup by path plus metadata.  Supplied by the caller; only applied here. -/
structure LsColors where
  style_for_indicator : Indicator → Option Style
  style_for_path_with_metadata : List Char → Option Metadata → Option Style

/-- Configuration options read by output.rs.  config.rs is not under src/; the
fields below are exactly those consulted by the code, except
show_trailing_separator, which is Modelled from the spec (RenderConfig, spec
section 3) and is never read by the rendering code in src/. -/
structure Config where
  ls_colors : Option LsColors
  null_separator : Bool
  path_separator : Option (List Char)
  interactive_terminal : Bool
  show_trailing_separator : Bool

/-- The NUL character written when null_separator is configured. -/
def nulChar : Char := Char.ofNat 0

/-- The record terminator character: NUL when null_separator is set, else newline
(output.rs lines 134-138 and line 153). -/
def termChar (cfg : Config) : Char := if cfg.null_separator then nulChar else '\n'

/-- One write! call: an optional style (none = unstyled / default style, as
produced by unwrap_or_default) and the text painted. -/
abbrev Chunk := Option Style × List Char

/-- The characters of a chunk sequence in write order, styling erased. -/
def flatten : List Chunk → List Char
  | [] => []
  | c :: cs => c.2 ++ flatten cs

/-- entry.metadata().map_or(false, |m| m.is_dir()) (output.rs line 67). -/
def entry_is_dir (entry : DirEntry) : Bool :=
  match entry.metadata with
  | some m => m.is_dir
  | none => false

/-- The separator used for the trailing slash: the configured override if set,
otherwise MAIN_SEPARATOR_STR (output.rs lines 68-71). -/
def sep_string (cfg : Config) : List Char :=
  match cfg.path_separator with
  | some s => s
  | none => MAIN_SEPARATOR_STR

/-- print_trailing_slash (output.rs lines 60-82) as the chunks it writes: one
styled separator when the entry's metadata resolves to a directory, nothing
otherwise. -/
def trailing_slash_chunks (cfg : Config) (entry : DirEntry) (style : Option Style) :
    List Chunk :=
  if entry_is_dir entry then [(style, sep_string cfg)] else []

/-- The split offset of print_entry_colorized (output.rs lines 92-106): the
byte length of the parent, advanced over the run of separator characters that
follows it; 0 when the path has no parent.  Byte offsets coincide with character
offsets here because the parent is a textual prefix of the path. -/
def splitOffset (path : List Char) : Nat :=
  match parentLen path with
  | none => 0
  | some k => k + ((path.drop k).takeWhile isSeparator).length

/-- The directory-prefix text before substitution: path_str[..offset]. -/
def colorized_parent_raw (entry : DirEntry) : List Char :=
  (stripped_path entry).take (splitOffset (stripped_path entry))

/-- The directory-prefix text as written (output.rs lines 109-112): the
separator substitution is applied when an override is configured. -/
def colorized_parent_text (cfg : Config) (entry : DirEntry) : List Char :=
  match cfg.path_separator with
  | some sep => replace_path_separator sep (colorized_parent_raw entry)
  | none => colorized_parent_raw entry

/-- The final-component text as written (output.rs line 125): path_str[offset..],
with no separator substitution applied. -/
def colorized_final_text (entry : DirEntry) : List Char :=
  (stripped_path entry).drop (splitOffset (stripped_path entry))

/-- The path chunks of print_entry_colorized (output.rs lines 108-125): the
directory prefix styled by the Directory indicator (written only when the offset
is positive), then the final component styled by the path + metadata lookup. -/
def colorized_path_chunks (cfg : Config) (lsc : LsColors) (entry : DirEntry) :
    List Chunk :=
  let path := stripped_path entry
  (if splitOffset path > 0 then
      [(lsc.style_for_indicator Indicator.directory, colorized_parent_text cfg entry)]
    else [])
  ++ [(lsc.style_for_path_with_metadata path entry.metadata, colorized_final_text entry)]

/-- All chunks written by print_entry_colorized before the record terminator:
the path chunks then the trailing slash styled by the Directory indicator
(output.rs lines 127-132). -/
def colorized_payload (cfg : Config) (lsc : LsColors) (entry : DirEntry) : List Chunk :=
  colorized_path_chunks cfg lsc entry
    ++ trailing_slash_chunks cfg entry (lsc.style_for_indicator Indicator.directory)

/-- The full write sequence of print_entry_colorized (output.rs lines 85-138):
payload then the record terminator. -/
def colorized_chunks (cfg : Config) (lsc : LsColors) (entry : DirEntry) : List Chunk :=
  colorized_payload cfg lsc entry ++ [(none, [termChar cfg])]

/-- The path text written by print_entry_uncolorized_base (output.rs lines
156-159): the stripped path with the separator substitution applied when an
override is configured. -/
def base_path_text (cfg : Config) (entry : DirEntry) : List Char :=
  match cfg.path_separator with
  | some sep => replace_path_separator sep (stripped_path entry)
  | none => stripped_path entry

/-- All chunks written by print_entry_uncolorized_base before the terminator:
the unstyled path text then the unstyled trailing slash (output.rs lines 160-161). -/
def base_payload (cfg : Config) (entry : DirEntry) : List Chunk :=
  [(none, base_path_text cfg entry)] ++ trailing_slash_chunks cfg entry none

/-- The full write sequence of print_entry_uncolorized_base (output.rs lines
148-163): payload then the record terminator. -/
def base_chunks (cfg : Config) (entry : DirEntry) : List Chunk :=
  base_payload cfg entry ++ [(none, [termChar cfg])]

/-- The chunks of one record before the terminator, for whichever text pipeline
the configuration selects (output.rs lines 40-44). -/
def payload_chunks (cfg : Config) (entry : DirEntry) : List Chunk :=
  match cfg.ls_colors with
  | some lsc => colorized_payload cfg lsc entry
  | none => base_payload cfg entry

/-- The full chunk sequence of one record, for whichever text pipeline the
configuration selects (output.rs lines 40-44). -/
def record_chunks (cfg : Config) (entry : DirEntry) : List Chunk :=
  match cfg.ls_colors with
  | some lsc => colorized_chunks cfg lsc entry
  | none => base_chunks cfg entry

/-- The path text of one record (everything before the optional trailing slash
and the terminator), for whichever text pipeline the configuration selects. -/
def path_text (cfg : Config) (entry : DirEntry) : List Char :=
  match cfg.ls_colors with
  | some lsc => flatten (colorized_path_chunks cfg lsc entry)
  | none => base_path_text cfg entry

/-- io::ErrorKind as far as output.rs distinguishes it: BrokenPipe versus every
other error kind (output.rs lines 46-53). -/
inductive ErrorKind
  | brokenPipe
  | other (code : Nat)
deriving DecidableEq

/-- Modelled from the spec: ExitSignal = {Success, GeneralError, KilledByInterrupt}
(spec section 3); exit_codes.rs is not under src/.  The code names the interrupt
variant KilledBySigint. -/
inductive ExitCode
  | success
  | generalError
  | killedBySigint
deriving DecidableEq

/-- The state of the destination stream: the chunks successfully written so far,
and the outcomes injected for the upcoming write calls (head = next write).  An
exhausted response list means every further write succeeds. -/
structure WriteState where
  written : List Chunk
  responses : List (Option ErrorKind)
deriving DecidableEq

/-- One write! call against the stream: consumes the next injected outcome; a
successful write appends its chunk, a failed write appends nothing and yields
the error kind. -/
def wwrite (st : WriteState) (c : Chunk) : WriteState × Option ErrorKind :=
  match st.responses with
  | [] => (⟨st.written ++ [c], []⟩, none)
  | none :: rest => (⟨st.written ++ [c], rest⟩, none)
  | some k :: rest => (⟨st.written, rest⟩, some k)

/-- Sequential writes with the early return of the ? operator: stops at the
first failing write and yields its error kind. -/
def run_writes (st : WriteState) : List Chunk → WriteState × Option ErrorKind
  | [] => (st, none)
  | c :: cs =>
    match wwrite st c with
    | (st', none) => run_writes st' cs
    | (st', some k) => (st', some k)

/-- The io::Result of one of the two printing functions, or the process exit
they trigger themselves (ExitCode::exit diverges, so print_entry never observes
it). -/
inductive InnerResult
  | ok
  | ioErr (k : ErrorKind)
  | exit (c : ExitCode)
deriving DecidableEq

/-- print_entry_colorized (output.rs lines 85-145): performs its writes with
early return on failure; when every write succeeded it polls the cancellation
flag and exits with KilledBySigint when the flag is set. -/
def print_entry_colorized (st : WriteState) (cfg : Config) (lsc : LsColors)
    (entry : DirEntry) (wants_to_quit : Bool) : WriteState × InnerResult :=
  match run_writes st (colorized_chunks cfg lsc entry) with
  | (st', none) =>
    if wants_to_quit then (st', .exit .killedBySigint) else (st', .ok)
  | (st', some k) => (st', .ioErr k)

/-- print_entry_uncolorized_base (output.rs lines 148-163): performs its writes
with early return on failure; it never reads the cancellation flag. -/
def print_entry_uncolorized_base (st : WriteState) (cfg : Config)
    (entry : DirEntry) : WriteState × InnerResult :=
  match run_writes st (base_chunks cfg entry) with
  | (st', none) => (st', .ok)
  | (st', some k) => (st', .ioErr k)

/-- The outcome of print_entry: either control returns to the caller, or the
process exits with the given code, having reported the given error to the
diagnostic stream (none = no diagnostic emitted). -/
inductive PrintOutcome
  | returned
  | exited (c : ExitCode) (diag : Option ErrorKind)
deriving DecidableEq

/-- The dispatch of print_entry (output.rs lines 40-44): colorized when
config.ls_colors is set, otherwise the uncolorized text pipeline. -/
def run_inner (st : WriteState) (cfg : Config) (entry : DirEntry)
    (wants_to_quit : Bool) : WriteState × InnerResult :=
  match cfg.ls_colors with
  | some lsc => print_entry_colorized st cfg lsc entry wants_to_quit
  | none => print_entry_uncolorized_base st cfg entry

/-- print_entry (output.rs lines 34-55): on a write error it exits — with
Success and no diagnostic for BrokenPipe, with GeneralError and a diagnostic
(print_error, modelled as the reported error kind) for every other kind; a
process exit triggered inside the colorized printer propagates; otherwise
control returns. -/
def print_entry (st : WriteState) (cfg : Config) (entry : DirEntry)
    (wants_to_quit : Bool) : WriteState × PrintOutcome :=
  match run_inner st cfg entry wants_to_quit with
  | (st', .ok) => (st', .returned)
  | (st', .exit c) => (st', .exited c none)
  | (st', .ioErr k) =>
    if k = .brokenPipe then (st', .exited .success none)
    else (st', .exited .generalError (some k))

/-- UTF-8 encoding of one character, as the bytes write! sends for it. -/
def utf8EncodeChar (c : Char) : List Nat :=
  let v := c.toNat
  if v < 0x80 then [v]
  else if v < 0x800 then [0xC0 + v / 64, 0x80 + v % 64]
  else if v < 0x10000 then [0xE0 + v / 4096, 0x80 + v / 64 % 64, 0x80 + v % 64]
  else [0xF0 + v / 262144, 0x80 + v / 4096 % 64, 0x80 + v / 64 % 64, 0x80 + v % 64]

/-- UTF-8 encoding of a character list. -/
def encode_bytes : List Char → List Nat
  | [] => []
  | c :: cs => utf8EncodeChar c ++ encode_bytes cs

/-- The bytes sent for a chunk sequence.  In the uncolorized pipeline every
chunk is unstyled, so the bytes are exactly the UTF-8 encoding of the text. -/
def encode_chunks (cs : List Chunk) : List Nat := encode_bytes (flatten cs)

/-- Whether a byte is a UTF-8 continuation byte. -/
def isCont (b : Nat) : Bool := decide (0x80 ≤ b ∧ b ≤ 0xBF)

/-- The replacement character U+FFFD. -/
def replacementChar : Char := Char.ofNat 0xFFFD

/-- Valid second byte of a three-byte UTF-8 sequence led by b. -/
def utf8Valid3b1 (b b1 : Nat) : Bool :=
  if b = 0xE0 then decide (0xA0 ≤ b1 ∧ b1 ≤ 0xBF)
  else if b = 0xED then decide (0x80 ≤ b1 ∧ b1 ≤ 0x9F)
  else isCont b1

/-- Valid second byte of a four-byte UTF-8 sequence led by b. -/
def utf8Valid4b1 (b b1 : Nat) : Bool :=
  if b = 0xF0 then decide (0x90 ≤ b1 ∧ b1 ≤ 0xBF)
  else if b = 0xF4 then decide (0x80 ≤ b1 ∧ b1 ≤ 0x8F)
  else isCont b1

/-- String::from_utf8_lossy, fueled for termination: valid sequences decode to
their scalar value; each maximal invalid subpart is replaced by one U+FFFD. -/
def utf8LossyF : Nat → List Nat → List Char
  | 0, _ => []
  | _, [] => []
  | fuel + 1, b :: rest =>
    if b < 0x80 then Char.ofNat b :: utf8LossyF fuel rest
    else if 0xC2 ≤ b ∧ b ≤ 0xDF then
      match rest with
      | [] => [replacementChar]
      | b1 :: r1 =>
        if isCont b1 then
          Char.ofNat ((b - 0xC0) * 64 + (b1 - 0x80)) :: utf8LossyF fuel r1
        else replacementChar :: utf8LossyF fuel rest
    else if 0xE0 ≤ b ∧ b ≤ 0xEF then
      match rest with
      | [] => [replacementChar]
      | b1 :: r1 =>
        if utf8Valid3b1 b b1 then
          match r1 with
          | [] => [replacementChar]
          | b2 :: r2 =>
            if isCont b2 then
              Char.ofNat ((b - 0xE0) * 4096 + (b1 - 0x80) * 64 + (b2 - 0x80))
                :: utf8LossyF fuel r2
            else replacementChar :: utf8LossyF fuel r1
        else replacementChar :: utf8LossyF fuel rest
    else if 0xF0 ≤ b ∧ b ≤ 0xF4 then
      match rest with
      | [] => [replacementChar]
      | b1 :: r1 =>
        if utf8Valid4b1 b b1 then
          match r1 with
          | [] => [replacementChar]
          | b2 :: r2 =>
            if isCont b2 then
              match r2 with
              | [] => [replacementChar]
              | b3 :: r3 =>
                if isCont b3 then
                  Char.ofNat ((b - 0xF0) * 262144 + (b1 - 0x80) * 4096
                      + (b2 - 0x80) * 64 + (b3 - 0x80)) :: utf8LossyF fuel r3
                else replacementChar :: utf8LossyF fuel r2
            else replacementChar :: utf8LossyF fuel r1
        else replacementChar :: utf8LossyF fuel rest
    else replacementChar :: utf8LossyF fuel rest

/-- String::from_utf8_lossy on a byte list. -/
def utf8Lossy (bs : List Nat) : List Char := utf8LossyF bs.length bs

/-- A DirEntry seen at the byte level, as unix OsStr paths are: the exact
on-disk byte representation of the path, plus the resolved metadata. -/
structure UEntry where
  path : List Nat
  metadata : Option Metadata
deriving DecidableEq

/-- Path::is_absolute at the byte level on unix: leading slash byte. -/
def u_is_absolute (bs : List Nat) : Bool := bs.head? == some 47

/-- Modelled from the spec: strip_current_dir at the byte level (the defining
filesystem.rs is not under src/): strips a leading current-directory component. -/
def u_strip_current_dir (bs : List Nat) : List Nat :=
  match bs with
  | [46] => []
  | 46 :: 47 :: rest => rest
  | _ => bs

/-- stripped_path at the byte level (output.rs lines 24-31). -/
def u_stripped_path (e : UEntry) : List Nat :=
  if u_is_absolute e.path then e.path else u_strip_current_dir e.path

/-- The character-level view of a byte-level entry: Path::to_string_lossy. -/
def toCharEntry (e : UEntry) : DirEntry := ⟨utf8Lossy e.path, e.metadata⟩

/-- The record terminator byte: NUL when null_separator is set, else newline
(output.rs line 187). -/
def termByte (cfg : Config) : Nat := if cfg.null_separator then 0 else 10

/-- The cfg(unix) print_entry_uncolorized (output.rs lines 174-192) as the bytes
it writes: on an interactive terminal or with a separator override it falls back
to the base implementation on the lossily decoded path; otherwise it writes the
raw path bytes, the trailing slash, and the separator byte directly. -/
def print_entry_uncolorized_unix (cfg : Config) (e : UEntry) : List Nat :=
  if cfg.interactive_terminal || cfg.path_separator.isSome then
    encode_chunks (base_chunks cfg (toCharEntry e))
  else
    u_stripped_path e
      ++ encode_chunks (trailing_slash_chunks cfg (toCharEntry e) none)
      ++ [termByte cfg]

/-- The bytes of the unix uncolorized record before its terminator. -/
def u_payload (cfg : Config) (e : UEntry) : List Nat :=
  if cfg.interactive_terminal || cfg.path_separator.isSome then
    encode_chunks (base_payload cfg (toCharEntry e))
  else
    u_stripped_path e
      ++ encode_chunks (trailing_slash_chunks cfg (toCharEntry e) none)

/-- Modelled from the spec: walk::DirEntry is opaque to the filter combinators
(spec sections 2 and 4.1); walk.rs is not under src/. -/
structure WalkDirEntry where
  tag : Nat
deriving DecidableEq

/-- A filter as the combinators see it: its should_skip behavior
(filter/common.rs lines 3-10). -/
structure Filter where
  should_skip : WalkDirEntry → Bool

/-- Filter::chain producing ChainedFilter (filter/common.rs lines 7-18): the
chained filter skips when either operand skips, left first with short-circuit. -/
def Filter.chain (f g : Filter) : Filter :=
  ⟨fun e => f.should_skip e || g.should_skip e⟩

/-- The Filter impl for Option (filter/common.rs lines 20-27):
self.as_ref().map_or(false, |f| f.should_skip(entry)). -/
def option_should_skip (o : Option Filter) (e : WalkDirEntry) : Bool :=
  match o with
  | none => false
  | some f => f.should_skip e

/-- An optional filter used as a filter, via the Option impl. -/
def optionFilter (o : Option Filter) : Filter := ⟨option_should_skip o⟩

/-- The number of trailing occurrences of t at the end of a list. -/
def countTrailing {α : Type} [DecidableEq α] (t : α) (l : List α) : Nat :=
  (l.reverse.takeWhile (fun x => decide (x = t))).length

theorem countTrailing_concat {α : Type} [DecidableEq α] (t : α) (l : List α) :
    countTrailing t (l ++ [t]) = countTrailing t l + 1 := by
  simp [countTrailing, List.takeWhile_cons]

theorem flatten_append (a b : List Chunk) :
    flatten (a ++ b) = flatten a ++ flatten b := by
  induction a with
  | nil => simp [flatten]
  | cons c cs ih => simp [flatten, ih]

theorem encode_bytes_append (a b : List Char) :
    encode_bytes (a ++ b) = encode_bytes a ++ encode_bytes b := by
  induction a with
  | nil => simp [encode_bytes]
  | cons c cs ih => simp [encode_bytes, ih]

theorem encode_chunks_append (a b : List Chunk) :
    encode_chunks (a ++ b) = encode_chunks a ++ encode_chunks b := by
  simp [encode_chunks, flatten_append, encode_bytes_append]

theorem encode_term (cfg : Config) :
    encode_chunks [(none, [termChar cfg])] = [termByte cfg] := by
  cases h : cfg.null_separator <;> simp [termChar, termByte, h] <;> decide

theorem record_chunks_eq (cfg : Config) (e : DirEntry) :
    record_chunks cfg e = payload_chunks cfg e ++ [(none, [termChar cfg])] := by
  cases h : cfg.ls_colors <;>
    simp [record_chunks, payload_chunks, colorized_chunks, base_chunks, h]

theorem flatten_payload (cfg : Config) (e : DirEntry) :
    flatten (payload_chunks cfg e) =
      path_text cfg e ++ (if entry_is_dir e then sep_string cfg else []) := by
  cases h : cfg.ls_colors with
  | none =>
    cases hd : entry_is_dir e <;>
      simp [payload_chunks, path_text, base_payload, trailing_slash_chunks, h, hd,
        flatten_append, flatten]
  | some lsc =>
    cases hd : entry_is_dir e <;>
      simp [payload_chunks, path_text, colorized_payload, trailing_slash_chunks, h, hd,
        flatten_append, flatten]

theorem unix_record_eq (cfg : Config) (ue : UEntry) :
    print_entry_uncolorized_unix cfg ue = u_payload cfg ue ++ [termByte cfg] := by
  by_cases hb : (cfg.interactive_terminal || cfg.path_separator.isSome) = true
  · simp [print_entry_uncolorized_unix, u_payload, hb, base_chunks,
      encode_chunks_append, encode_term]
  · simp [print_entry_uncolorized_unix, u_payload, hb]

theorem run_writes_success (w cs : List Chunk) :
    run_writes ⟨w, []⟩ cs = (⟨w ++ cs, []⟩, none) := by
  induction cs generalizing w with
  | nil => simp [run_writes]
  | cons c cs ih => simp [run_writes, wwrite, ih]

theorem not_mem_replace (s : List Char) (h : mainSeparator ∉ s) :
    ∀ p : List Char, mainSeparator ∉ replace_path_separator s p
  | [] => by simp [replace_path_separator]
  | c :: cs => by
    simp only [replace_path_separator, List.mem_append, not_or]
    refine ⟨?_, not_mem_replace s h cs⟩
    by_cases hc : c = mainSeparator
    · simpa [hc] using h
    · simp only [if_neg hc, List.mem_singleton]
      exact fun hh => hc hh.symm

/-- C1: if one of the writes of a record fails, print_entry exits instead of
returning: with ExitCode Success and no diagnostic when the error kind is
BrokenPipe, and with ExitCode GeneralError and a diagnostic reporting the error
otherwise; the stream state it leaves is exactly the state at the failing write,
so no write is retried, and the failure is never returned to the caller. -/
theorem C1_write_error_dispatch (st st' : WriteState) (cfg : Config)
    (e : DirEntry) (q : Bool) (k : ErrorKind)
    (h : run_inner st cfg e q = (st', .ioErr k)) :
    print_entry st cfg e q =
      (st', if k = .brokenPipe then .exited .success none
            else .exited .generalError (some k)) := by
  unfold print_entry
  rw [h]
  by_cases hk : k = ErrorKind.brokenPipe <;> simp [hk]

def cfg_c1 : Config := ⟨none, false, none, false, false⟩

def ent_c1 : DirEntry := ⟨['/', 'a'], none⟩

/-- Witness for C1: with a broken-pipe failure injected into the first write,
print_entry exits with Success and emits no diagnostic. -/
theorem C1_witness :
    print_entry ⟨[], [some .brokenPipe]⟩ cfg_c1 ent_c1 false =
      (⟨[], []⟩, .exited .success none) := by
  have h := C1_write_error_dispatch ⟨[], [some .brokenPipe]⟩ ⟨[], []⟩ cfg_c1
    ent_c1 false .brokenPipe (by decide)
  simpa using h

/-- C2 counterexample: in the uncolorized pipeline the cancellation flag is
never polled.  With no color configured, the flag set, and every write
succeeding, print_entry returns normally instead of exiting with
KilledBySigint, refuting the claim for the uncolorized configurations. -/
theorem C2_counterexample :
    (print_entry ⟨[], []⟩ ⟨none, false, none, false, false⟩ ⟨['a'], some ⟨false⟩⟩ true).2
        = .returned
    ∧ (print_entry ⟨[], []⟩ ⟨none, false, none, false, false⟩ ⟨['a'], some ⟨false⟩⟩ true).2
        ≠ .exited .killedBySigint none := by
  decide

/-- C2 amended: only the colorized printer polls the cancellation flag after
successfully writing a record; when color is configured and every write
succeeds, print_entry exits with KilledBySigint when the flag is set and
returns normally when it is not (so in colorized mode at most one record
follows a cancellation request).  The uncolorized printer never polls. -/
theorem C2_colorized_cancellation (st : WriteState) (cfg : Config)
    (lsc : LsColors) (e : DirEntry) (hl : cfg.ls_colors = some lsc)
    (hr : st.responses = []) :
    (print_entry st cfg e true).2 = .exited .killedBySigint none
    ∧ (print_entry st cfg e false).2 = .returned := by
  obtain ⟨w, r⟩ := st
  have hr' : r = [] := hr
  subst hr'
  constructor <;>
    simp [print_entry, run_inner, hl, print_entry_colorized, run_writes_success]

def lsc_c2 : LsColors := ⟨fun _ => none, fun _ _ => none⟩

def cfg_c2 : Config := ⟨some lsc_c2, false, none, false, false⟩

/-- Witness for C2 amended: a colorized configuration with the flag set exits
with KilledBySigint after the record is written. -/
theorem C2_witness :
    (print_entry ⟨[], []⟩ cfg_c2 ⟨['a'], some ⟨false⟩⟩ true).2 =
      .exited .killedBySigint none :=
  (C2_colorized_cancellation ⟨[], []⟩ cfg_c2 lsc_c2 ⟨['a'], some ⟨false⟩⟩ rfl rfl).1

/-- C3 counterexample: for the entry whose rendered path is "a\n" (filenames
may contain newlines) with the newline terminator configured, the emitted
record is "a\n\n", which ends in two terminator bytes, not exactly one. -/
theorem C3_counterexample :
    countTrailing (termChar ⟨none, false, none, false, false⟩)
      (flatten (record_chunks ⟨none, false, none, false, false⟩ ⟨['a', '\n'], none⟩)) = 2 := by
  decide

/-- C3 amended: every record is its payload followed by exactly one appended
terminator character — NUL when null_separator is configured, newline otherwise
— in the text pipeline, and the corresponding terminator byte in the unix
raw-byte pipeline; whenever the payload does not itself end in the terminator
(always the case for NUL, since paths cannot contain NUL), the record ends with
exactly one terminator, never zero and never two. -/
theorem C3_record_terminator (cfg : Config) (e : DirEntry) (ue : UEntry) :
    (flatten (record_chunks cfg e) = flatten (payload_chunks cfg e) ++ [termChar cfg]
      ∧ (countTrailing (termChar cfg) (flatten (payload_chunks cfg e)) = 0 →
          countTrailing (termChar cfg) (flatten (record_chunks cfg e)) = 1))
    ∧ (print_entry_uncolorized_unix cfg ue = u_payload cfg ue ++ [termByte cfg]
      ∧ (countTrailing (termByte cfg) (u_payload cfg ue) = 0 →
          countTrailing (termByte cfg) (print_entry_uncolorized_unix cfg ue) = 1)) := by
  have hc : flatten (record_chunks cfg e) =
      flatten (payload_chunks cfg e) ++ [termChar cfg] := by
    rw [record_chunks_eq, flatten_append]
    simp [flatten]
  refine ⟨⟨hc, ?_⟩, ⟨unix_record_eq cfg ue, ?_⟩⟩
  · intro h0
    rw [hc, countTrailing_concat, h0]
  · intro h0
    rw [unix_record_eq cfg ue, countTrailing_concat, h0]

def cfg_c3 : Config := ⟨none, true, none, false, false⟩

/-- Witness for C3 amended: with the NUL terminator configured, a concrete
record in each pipeline ends with exactly one terminator. -/
theorem C3_witness :
    countTrailing (termChar cfg_c3)
        (flatten (record_chunks cfg_c3 ⟨['a'], none⟩)) = 1
    ∧ countTrailing (termByte cfg_c3)
        (print_entry_uncolorized_unix cfg_c3 ⟨[47, 255], none⟩) = 1 :=
  ⟨(C3_record_terminator cfg_c3 ⟨['a'], none⟩ ⟨[47, 255], none⟩).1.2 (by decide),
   (C3_record_terminator cfg_c3 ⟨['a'], none⟩ ⟨[47, 255], none⟩).2.2 (by decide)⟩

/-- C4 counterexample: the colorized printer applies the separator override to
the directory-prefix segment only.  For the entry whose path is "/" (all of it
the final-component segment) with override "::", the emitted path text is still
"/": a native separator survives in the output, refuting the claim that every
occurrence is replaced in both segments. -/
theorem C4_counterexample :
    flatten (record_chunks
        ⟨some ⟨fun _ => none, fun _ _ => none⟩, false, some [':', ':'], false, false⟩
        ⟨['/'], none⟩) = ['/', '\n']
    ∧ mainSeparator ∈ (flatten (record_chunks
        ⟨some ⟨fun _ => none, fun _ _ => none⟩, false, some [':', ':'], false, false⟩
        ⟨['/'], none⟩)).dropLast := by
  constructor <;> decide

/-- C4 amended: with a separator override S containing no native separator, the
uncolorized printer replaces every native separator of the rendered path (its
emitted text is the full substitution and contains no native separator), and
the colorized printer applies the same substitution to the directory-prefix
segment; the colorized final-component segment is emitted without substitution
(it contains native separators only when the split leaves them there, as for a
root or trailing-slash path). -/
theorem C4_separator_substitution (cfg : Config) (s : List Char) (e : DirEntry)
    (hs : cfg.path_separator = some s) (hns : mainSeparator ∉ s) :
    base_path_text cfg e = replace_path_separator s (stripped_path e)
    ∧ mainSeparator ∉ base_path_text cfg e
    ∧ colorized_parent_text cfg e = replace_path_separator s (colorized_parent_raw e)
    ∧ mainSeparator ∉ colorized_parent_text cfg e
    ∧ colorized_final_text e =
        (stripped_path e).drop (splitOffset (stripped_path e)) := by
  have h1 : base_path_text cfg e = replace_path_separator s (stripped_path e) := by
    simp [base_path_text, hs]
  have h2 : colorized_parent_text cfg e =
      replace_path_separator s (colorized_parent_raw e) := by
    simp [colorized_parent_text, hs]
  refine ⟨h1, ?_, h2, ?_, rfl⟩
  · rw [h1]; exact not_mem_replace s hns _
  · rw [h2]; exact not_mem_replace s hns _

def cfg_c4 : Config := ⟨none, false, some [':', ':'], false, false⟩

def ent_c4 : DirEntry := ⟨"/home/user/docs".toList, some ⟨true⟩⟩

/-- Witness for C4 amended: the uncolorized path text for "/home/user/docs"
with override "::" is "::home::user::docs" and contains no native separator. -/
theorem C4_witness :
    base_path_text cfg_c4 ent_c4 = "::home::user::docs".toList
    ∧ mainSeparator ∉ base_path_text cfg_c4 ent_c4 := by
  have h := C4_separator_substitution cfg_c4 [':', ':'] ent_c4 rfl (by decide)
  exact ⟨h.1.trans (by decide), h.2.1⟩

/-- C5: on unix, with a non-interactive destination and no separator override
(and color disabled, so the uncolorized printer runs), the record is the
stripped path's exact on-disk bytes — whatever they are, valid text or not —
followed by the trailing slash and terminator bytes, bypassing any text
conversion; for an absolute path the bytes are the entry's path bytes
verbatim. -/
theorem C5_raw_bytes (cfg : Config) (e : UEntry) (_hc : cfg.ls_colors = none)
    (hi : cfg.interactive_terminal = false) (hp : cfg.path_separator = none) :
    print_entry_uncolorized_unix cfg e =
      u_stripped_path e
        ++ (if entry_is_dir (toCharEntry e) then [47] else []) ++ [termByte cfg]
    ∧ (u_is_absolute e.path = true → print_entry_uncolorized_unix cfg e =
        e.path ++ (if entry_is_dir (toCharEntry e) then [47] else []) ++ [termByte cfg]) := by
  have hb : (cfg.interactive_terminal || cfg.path_separator.isSome) = false := by
    simp [hi, hp]
  have h1 : print_entry_uncolorized_unix cfg e =
      u_stripped_path e
        ++ (if entry_is_dir (toCharEntry e) then [47] else []) ++ [termByte cfg] := by
    rw [print_entry_uncolorized_unix, hb]
    have h47 : utf8EncodeChar mainSeparator = [47] := by decide
    cases hd : entry_is_dir (toCharEntry e) <;>
      simp [trailing_slash_chunks, hd, sep_string, hp, MAIN_SEPARATOR_STR,
        encode_chunks, flatten, encode_bytes, h47]
  refine ⟨h1, fun habs => ?_⟩
  rw [h1]
  simp [u_stripped_path, habs]

def cfg_c5 : Config := ⟨none, false, none, false, false⟩

def uent_c5 : UEntry := ⟨[47, 255], some ⟨true⟩⟩

/-- Witness for C5: the absolute directory path with bytes 0x2F 0xFF — where
0xFF is not valid UTF-8 — is emitted verbatim, followed by the slash and
newline bytes. -/
theorem C5_witness :
    print_entry_uncolorized_unix cfg_c5 uent_c5 = [47, 255, 47, 10] := by
  have h := (C5_raw_bytes cfg_c5 uent_c5 rfl rfl rfl).2 (by decide)
  exact h.trans (by decide)

/-- C6: when the entry's metadata resolves to a directory (and the trailing
separator option is on), the record is the path text, then exactly one copy of
the separator (the override if set, the native separator otherwise), then the
terminator; a non-directory record has no separator between path text and
terminator. -/
theorem C6_trailing_separator (cfg : Config) (e : DirEntry) :
    (cfg.show_trailing_separator = true → entry_is_dir e = true →
      flatten (record_chunks cfg e) =
        path_text cfg e ++ sep_string cfg ++ [termChar cfg])
    ∧ (entry_is_dir e = false →
      flatten (record_chunks cfg e) = path_text cfg e ++ [termChar cfg]) := by
  constructor
  · intro _ hd
    rw [record_chunks_eq, flatten_append, flatten_payload]
    simp [hd, flatten]
  · intro hd
    rw [record_chunks_eq, flatten_append, flatten_payload]
    simp [hd, flatten]

def cfg_c6 : Config := ⟨none, false, none, false, true⟩

def ent_c6 : DirEntry := ⟨"/home/user/docs".toList, some ⟨true⟩⟩

/-- Witness for C6: the directory entry "/home/user/docs" is emitted as
"/home/user/docs/\n". -/
theorem C6_witness :
    flatten (record_chunks cfg_c6 ent_c6) = "/home/user/docs/\n".toList :=
  ((C6_trailing_separator cfg_c6 ent_c6).1 rfl rfl).trans (by decide)

/-- C7: filter chaining is associative: chaining F1 with F2 and then F3 skips
an entry exactly when chaining F1 with the chain of F2 and F3 does. -/
theorem C7_chain_assoc (f1 f2 f3 : Filter) (e : WalkDirEntry) :
    ((f1.chain f2).chain f3).should_skip e
      = (f1.chain (f2.chain f3)).should_skip e := by
  simp [Filter.chain, Bool.or_assoc]

/-- C8: the absent filter (the None case of the Option impl) never skips, and
chaining any filter with it on either side gives the same should_skip result
as that filter alone, so it is the identity of chain composition under OR. -/
theorem C8_absent_filter_identity (f : Filter) (e : WalkDirEntry) :
    option_should_skip none e = false
    ∧ (f.chain (optionFilter none)).should_skip e = f.should_skip e
    ∧ ((optionFilter none).chain f).should_skip e = f.should_skip e := by
  refine ⟨rfl, ?_, ?_⟩ <;> simp [Filter.chain, optionFilter, option_should_skip]

/-- C9: for a directory entry rendered with colorization, the trailing
separator chunk — the one written just before the terminator — carries exactly
the style the table associates with the Directory indicator (none meaning
unstyled), for every style table, in particular whatever style the
path-plus-metadata lookup gave the final component. -/
theorem C9_trailing_style (cfg : Config) (lsc : LsColors) (e : DirEntry)
    (hd : entry_is_dir e = true) :
    (colorized_chunks cfg lsc e).dropLast.getLast? =
      some (lsc.style_for_indicator Indicator.directory, sep_string cfg) := by
  have h1 : colorized_chunks cfg lsc e =
      (colorized_path_chunks cfg lsc e
          ++ [(lsc.style_for_indicator Indicator.directory, sep_string cfg)])
        ++ [(none, [termChar cfg])] := by
    simp [colorized_chunks, colorized_payload, trailing_slash_chunks, hd]
  rw [h1, List.dropLast_concat, List.getLast?_concat]

def lsc_c9 : LsColors := ⟨fun _ => some ⟨7⟩, fun _ _ => some ⟨5⟩⟩

def cfg_c9 : Config := ⟨some lsc_c9, false, none, false, false⟩

/-- Witness for C9: with a style table giving the Directory indicator style 7
and every path lookup style 5, the trailing separator chunk of a directory
record carries style 7. -/
theorem C9_witness :
    (colorized_chunks cfg_c9 lsc_c9 ⟨['/', 'a'], some ⟨true⟩⟩).dropLast.getLast? =
      some (some ⟨7⟩, ['/']) :=
  (C9_trailing_style cfg_c9 lsc_c9 ⟨['/', 'a'], some ⟨true⟩⟩ rfl).trans (by decide)

/-- C10: when metadata resolution failed (entry.metadata() is None), the entry
renders exactly like a non-directory: the record is the path text followed
directly by the terminator with no trailing separator, and with a healthy
stream print_entry completes and returns normally — no error is raised. -/
theorem C10_metadata_failure (cfg : Config) (e : DirEntry)
    (hm : e.metadata = none) :
    flatten (record_chunks cfg e) = path_text cfg e ++ [termChar cfg]
    ∧ (print_entry ⟨[], []⟩ cfg e false).2 = .returned := by
  have hd : entry_is_dir e = false := by simp [entry_is_dir, hm]
  constructor
  · rw [record_chunks_eq, flatten_append, flatten_payload]
    simp [hd, flatten]
  · cases h : cfg.ls_colors with
    | none =>
      simp [print_entry, run_inner, h, print_entry_uncolorized_base,
        run_writes_success]
    | some lsc =>
      simp [print_entry, run_inner, h, print_entry_colorized, run_writes_success]

def cfg_c10 : Config := ⟨none, false, none, false, true⟩

/-- Witness for C10: an entry with failed metadata resolution is printed with
no trailing separator and print_entry returns normally. -/
theorem C10_witness :
    flatten (record_chunks cfg_c10 ⟨['/', 'b'], none⟩) =
        path_text cfg_c10 ⟨['/', 'b'], none⟩ ++ [termChar cfg_c10]
    ∧ (print_entry ⟨[], []⟩ cfg_c10 ⟨['/', 'b'], none⟩ false).2 = .returned :=
  C10_metadata_failure cfg_c10 ⟨['/', 'b'], none⟩ rfl

end Fd
